import Mathlib

/-!
Verification of the miIO protocol core (packet codec, cipher construction,
transport session state, discovery collection) of the `xiaomi-miio` client
library, as a shallow embedding in Lean.

Byte buffers (`Buffer`) are modelled as `List Nat` (each entry one byte).
The external cryptographic and JSON primitives from `node:crypto` and the
JavaScript runtime (AES-128-CBC, MD5, `JSON.stringify`/`JSON.parse`) are not
part of this repository; they are modelled as abstract function bundles
(`CryptoPrims`, `JsonPrims`) that the repository's own code is parameterised
over, with their relevant contracts (inversion, digest length) taken as
hypotheses where a theorem needs them.
-/

/-- A JSON value, the universe of payload objects handled by the protocol.
JavaScript numbers are restricted to integers here; the claims under study
only inspect integer `id` fields. -/
inductive Json where
  | null : Json
  | bool (b : Bool) : Json
  | num (n : Int) : Json
  | str (s : String) : Json
  | arr (elems : List Json) : Json
  | obj (fields : List (String × Json)) : Json
deriving Repr

/-- Structural (deep) equality of JSON values, decidable. -/
def Json.beq : Json → Json → Bool
  | .null, .null => true
  | .bool a, .bool b => a == b
  | .num a, .num b => a == b
  | .str a, .str b => a == b
  | .arr a, .arr b =>
    let rec beqList : List Json → List Json → Bool
      | [], [] => true
      | x :: xs, y :: ys => x.beq y && beqList xs ys
      | _, _ => false
    beqList a b
  | .obj a, .obj b =>
    let rec beqFields : List (String × Json) → List (String × Json) → Bool
      | [], [] => true
      | (k, v) :: xs, (k2, v2) :: ys => k == k2 && v.beq v2 && beqFields xs ys
      | _, _ => false
    beqFields a b
  | _, _ => false

instance : BEq Json := ⟨Json.beq⟩

/-- Error conditions raised by the protocol core.  The source raises plain
`Error` objects; each distinct raise site becomes one constructor, with the
source's message text recovered by `MiioError.message`. -/
inductive MiioError where
  /-- Condition `Packet too short: N bytes` from `MiioPacket.decode`. -/
  | packetTooShort (n : Nat) : MiioError
  /-- Condition `Invalid magic: 0x…` from `MiioPacket.decode`. -/
  | invalidMagic (m : Nat) : MiioError
  /-- Condition `Token must be 16 bytes, got N` from the `MiioCrypto` constructor. -/
  | invalidTokenLength (n : Nat) : MiioError
  /-- Condition `Hello response too short` from `MiioPacket.extractToken`. -/
  | helloTooShort : MiioError
  /-- Node's `ERR_OUT_OF_RANGE` from `Buffer.writeUInt16BE`/`writeUInt32BE`
  when a header field value does not fit. -/
  | valueOutOfRange : MiioError
  /-- A failure thrown by `decipher.update`/`final` (bad padding etc.). -/
  | decryptionFailed (s : String) : MiioError
  /-- A failure thrown by `JSON.parse`. -/
  | jsonParseFailed (s : String) : MiioError
deriving Repr, DecidableEq

/-- Lower-case hexadecimal rendering, as JavaScript's `n.toString(16)`. -/
def natToHex (n : Nat) : String :=
  String.mk (Nat.toDigits 16 n)

/-- The message text of the `Error` each condition was raised with. -/
def MiioError.message : MiioError → String
  | .packetTooShort n => "Packet too short: " ++ toString n ++ " bytes"
  | .invalidMagic m => "Invalid magic: 0x" ++ natToHex m
  | .invalidTokenLength n => "Token must be 16 bytes, got " ++ toString n
  | .helloTooShort => "Hello response too short"
  | .valueOutOfRange => "The value is out of range"
  | .decryptionFailed s => s
  | .jsonParseFailed s => s

/-- Models `buf.readUInt16BE(off)` on a byte list (big-endian, in-bounds at use sites). -/
def readUInt16BE (b : List Nat) (off : Nat) : Nat :=
  b.getD off 0 * 256 + b.getD (off + 1) 0

/-- Models `buf.readUInt32BE(off)` on a byte list (big-endian, in-bounds at use sites). -/
def readUInt32BE (b : List Nat) (off : Nat) : Nat :=
  b.getD off 0 * 16777216 + b.getD (off + 1) 0 * 65536 +
    b.getD (off + 2) 0 * 256 + b.getD (off + 3) 0

/-- The two bytes `buf.writeUInt16BE(n, off)` stores (callers guard `n ≤ 0xFFFF`). -/
def u16be (n : Nat) : List Nat :=
  [n / 256 % 256, n % 256]

/-- The four bytes `buf.writeUInt32BE(n, off)` stores (callers guard `n ≤ 0xFFFFFFFF`). -/
def u32be (n : Nat) : List Nat :=
  [n / 16777216 % 256, n / 65536 % 256, n / 256 % 256, n % 256]

/-- Models `src.copy(dst, off)`: overwrite `dst` starting at `off` with `src`,
truncated to `dst`'s end; `dst`'s length is preserved. -/
def bufCopy (dst : List Nat) (off : Nat) (src : List Nat) : List Nat :=
  dst.take off ++ src.take (dst.length - off) ++ dst.drop (off + src.length)

/-- The primitives `MiioCrypto` consumes from `node:crypto`: AES-128-CBC with
PKCS#7 padding (keyed encrypt/decrypt) and MD5.  Abstract here because they
are library code, not repository code. -/
structure CryptoPrims where
  aesEncrypt : List Nat → List Nat → List Nat → List Nat
  aesDecrypt : List Nat → List Nat → List Nat → Except String (List Nat)
  md5 : List Nat → List Nat

/-- The JavaScript runtime's JSON serialization, abstract for the same
reason: `stringify` is `JSON.stringify` followed by UTF-8 encoding, `parse`
is UTF-8 decoding followed by `JSON.parse`. -/
structure JsonPrims where
  stringify : Json → List Nat
  parse : List Nat → Except String Json

/-- Key material derived by the `MiioCrypto` constructor. -/
structure MiioCrypto where
  key : List Nat
  iv : List Nat
deriving Repr, DecidableEq

/-- The `MiioCrypto` constructor: requires a 16-byte token, then derives
`key = MD5(token)` and `iv = MD5(key ++ token)`. -/
def MiioCrypto.create (P : CryptoPrims) (token : List Nat) : Except MiioError MiioCrypto :=
  if token.length ≠ 16 then
    .error (.invalidTokenLength token.length)
  else
    .ok { key := P.md5 token, iv := P.md5 (P.md5 token ++ token) }

/-- Models `MiioCrypto.encrypt`: AES-128-CBC with the derived key/iv. -/
def MiioCrypto.encrypt (P : CryptoPrims) (c : MiioCrypto) (plaintext : List Nat) : List Nat :=
  P.aesEncrypt c.key c.iv plaintext

/-- Models `MiioCrypto.decrypt`: the inverse AES-128-CBC operation. -/
def MiioCrypto.decrypt (P : CryptoPrims) (c : MiioCrypto) (ciphertext : List Nat) :
    Except MiioError (List Nat) :=
  match P.aesDecrypt c.key c.iv ciphertext with
  | .ok plain => .ok plain
  | .error s => .error (.decryptionFailed s)

namespace MiioPacket

def MAGIC : Nat := 0x2131
def HEADER_SIZE : Nat := 32

/-- Models `MiioPacket.createHello()`: 32 bytes of `0xff`, then magic and length
written over the first four bytes. -/
def createHello : List Nat :=
  bufCopy (bufCopy (List.replicate HEADER_SIZE 0xff) 0 (u16be MAGIC)) 2 (u16be HEADER_SIZE)

/-- The result of `MiioPacket.decode`. -/
structure Decoded where
  deviceId : Nat
  stamp : Nat
  payload : Option Json
deriving Repr

/-- Models `MiioPacket.encode(deviceId, stamp, token, payload)`: build a `MiioCrypto`
from the token, encrypt the JSON text of `payload`, assemble the 32-byte
header (magic, total length, zero, deviceId, stamp, then the token as
checksum placeholder), overwrite the checksum field with
`MD5(header ++ ciphertext)`, and return `header ++ ciphertext`.
`writeUInt16BE`/`writeUInt32BE` range failures surface as `valueOutOfRange`. -/
def encode (P : CryptoPrims) (J : JsonPrims) (deviceId stamp : Nat) (token : List Nat)
    (payload : Json) : Except MiioError (List Nat) :=
  match MiioCrypto.create P token with
  | .error e => .error e
  | .ok c =>
    let encrypted := MiioCrypto.encrypt P c (J.stringify payload)
    let packetLength := HEADER_SIZE + encrypted.length
    if 65535 < packetLength ∨ 4294967295 < deviceId ∨ 4294967295 < stamp then
      .error .valueOutOfRange
    else
      let header0 := u16be MAGIC ++ u16be packetLength ++ u32be 0 ++
        u32be deviceId ++ u32be stamp ++ List.replicate 16 0
      let header1 := bufCopy header0 16 token
      let checksum := P.md5 (header1 ++ encrypted)
      let header2 := bufCopy header1 16 checksum
      .ok (header2 ++ encrypted)

/-- Models `MiioPacket.decode(data, token)`: validate minimum size and magic, read
length/deviceId/stamp from fixed offsets; a packet whose length field is
exactly 32 is a hello response with `payload = null`; otherwise bytes
`[32, length)` are decrypted with a cipher built from `token` and parsed as
JSON. -/
def decode (P : CryptoPrims) (J : JsonPrims) (data token : List Nat) :
    Except MiioError Decoded :=
  if data.length < HEADER_SIZE then
    .error (.packetTooShort data.length)
  else
    let magic := readUInt16BE data 0
    if magic ≠ MAGIC then
      .error (.invalidMagic magic)
    else
      let length := readUInt16BE data 2
      let deviceId := readUInt32BE data 8
      let stamp := readUInt32BE data 12
      if length = HEADER_SIZE then
        .ok { deviceId := deviceId, stamp := stamp, payload := none }
      else
        let encrypted := (data.take length).drop HEADER_SIZE
        match MiioCrypto.create P token with
        | .error e => .error e
        | .ok c =>
          match MiioCrypto.decrypt P c encrypted with
          | .error e => .error e
          | .ok decrypted =>
            match J.parse decrypted with
            | .error s => .error (.jsonParseFailed s)
            | .ok payload =>
              .ok { deviceId := deviceId, stamp := stamp, payload := some payload }

/-- Models `MiioPacket.extractToken(helloResponse)`: bytes `[16, 32)`. -/
def extractToken (helloResponse : List Nat) : Except MiioError (List Nat) :=
  if helloResponse.length < HEADER_SIZE then
    .error .helloTooShort
  else
    .ok ((helloResponse.take 32).drop 16)

end MiioPacket

/-! ### Concrete primitive bundles used to evaluate the model at specific inputs -/

/-- A concrete `CryptoPrims` instance satisfying the contracts assumed of
AES-128-CBC/MD5 (decrypt inverts encrypt, ciphertexts are nonempty, digests
are 16 bytes), used to evaluate the codec at specific inputs. -/
def cryptoStub : CryptoPrims where
  aesEncrypt := fun _ _ pt => 0 :: pt
  aesDecrypt := fun _ _ ct => .ok ct.tail
  md5 := fun _ => List.replicate 16 0

/-- A concrete `JsonPrims` instance used to evaluate the codec at specific
inputs; `parse` returns a fixed object carrying an `id` field. -/
def jsonStub : JsonPrims where
  stringify := fun _ => [110, 117, 108, 108]
  parse := fun _ => .ok (Json.obj [("id", Json.num 2)])

/-- A concrete `JsonPrims` instance whose `parse` inverts `stringify` on the
payload `Json.null`. -/
def jsonStubNull : JsonPrims where
  stringify := fun _ => [110, 117, 108, 108]
  parse := fun _ => .ok Json.null

/-! ### C7: token length invariant of the cipher constructor -/

/-- C7: constructing a `MiioCrypto` with a token of any length other than 16
bytes fails with the `invalidTokenLength` condition, whose message states the
actual length received; construction with a 16-byte token succeeds. -/
theorem C7_create_token_length (P : CryptoPrims) (token : List Nat) :
    (token.length ≠ 16 →
      MiioCrypto.create P token = .error (.invalidTokenLength token.length) ∧
      (MiioError.invalidTokenLength token.length).message =
        "Token must be 16 bytes, got " ++ toString token.length) ∧
    (token.length = 16 →
      MiioCrypto.create P token =
        .ok { key := P.md5 token, iv := P.md5 (P.md5 token ++ token) }) := by
  constructor
  · intro h
    simp [MiioCrypto.create, h, MiioError.message]
  · intro h
    simp [MiioCrypto.create, h]

/-- C7 witness: a 5-byte token is rejected with the length in the message,
a 16-byte token is accepted. -/
theorem C7_create_token_length_witness :
    (MiioCrypto.create cryptoStub [1, 2, 3, 4, 5] =
        .error (.invalidTokenLength 5) ∧
      (MiioError.invalidTokenLength 5).message = "Token must be 16 bytes, got 5") ∧
    MiioCrypto.create cryptoStub (List.replicate 16 0) =
      .ok { key := cryptoStub.md5 (List.replicate 16 0),
            iv := cryptoStub.md5 (cryptoStub.md5 (List.replicate 16 0) ++ List.replicate 16 0) } := by
  exact ⟨(C7_create_token_length cryptoStub [1, 2, 3, 4, 5]).1 (by decide),
    (C7_create_token_length cryptoStub (List.replicate 16 0)).2 (by decide)⟩

/-! ### C6: decode validation errors -/

/-- C6: decoding fewer than 32 bytes fails with `packetTooShort` whose
message states the actual byte count; decoding at least 32 bytes whose first
two big-endian bytes are not `0x2131` fails with `invalidMagic` whose message
states the offending value. -/
theorem C6_decode_validation (P : CryptoPrims) (J : JsonPrims) (data token : List Nat) :
    (data.length < 32 →
      MiioPacket.decode P J data token = .error (.packetTooShort data.length) ∧
      (MiioError.packetTooShort data.length).message =
        "Packet too short: " ++ toString data.length ++ " bytes") ∧
    (32 ≤ data.length → readUInt16BE data 0 ≠ 0x2131 →
      MiioPacket.decode P J data token = .error (.invalidMagic (readUInt16BE data 0)) ∧
      (MiioError.invalidMagic (readUInt16BE data 0)).message =
        "Invalid magic: 0x" ++ natToHex (readUInt16BE data 0)) := by
  constructor
  · intro h
    simp [MiioPacket.decode, MiioPacket.HEADER_SIZE, h, MiioError.message]
  · intro h1 h2
    simp [MiioPacket.decode, MiioPacket.HEADER_SIZE, MiioPacket.MAGIC,
      Nat.not_lt.mpr h1, h2, MiioError.message]

/-- C6 witness: a 3-byte input reports `Packet too short: 3 bytes`; a 32-byte
all-zero input reports `Invalid magic: 0x0`. -/
theorem C6_decode_validation_witness :
    (MiioPacket.decode cryptoStub jsonStub [1, 2, 3] [] =
        .error (.packetTooShort 3) ∧
      (MiioError.packetTooShort 3).message = "Packet too short: 3 bytes") ∧
    (MiioPacket.decode cryptoStub jsonStub (List.replicate 32 0) [] =
        .error (.invalidMagic 0) ∧
      (MiioError.invalidMagic 0).message = "Invalid magic: 0x0") := by
  refine ⟨(C6_decode_validation cryptoStub jsonStub [1, 2, 3] []).1 (by decide), ?_⟩
  have h := (C6_decode_validation cryptoStub jsonStub (List.replicate 32 0) []).2
    (by decide) (by decide)
  simpa [readUInt16BE] using h

/-! ### C5: handshake-response shape -/

/-- C5: any input of at least 32 bytes with valid magic whose length field is
32 decodes to a `null` payload carrying the header's deviceId and stamp, for
every token and every choice of crypto/JSON primitives (so decryption is
never attempted and the checksum/token field is irrelevant). -/
theorem C5_decode_hello_shape (P : CryptoPrims) (J : JsonPrims) (data : List Nat)
    (h32 : 32 ≤ data.length)
    (hmagic : readUInt16BE data 0 = 0x2131)
    (hlen : readUInt16BE data 2 = 32) :
    ∀ token, MiioPacket.decode P J data token =
      .ok { deviceId := readUInt32BE data 8, stamp := readUInt32BE data 12,
            payload := none } := by
  intro token
  simp [MiioPacket.decode, MiioPacket.HEADER_SIZE, MiioPacket.MAGIC,
    Nat.not_lt.mpr h32, hmagic, hlen]

/-- C5 witness: a 40-byte buffer with length field 32, arbitrary junk in the
checksum field and a 3-byte (invalid-length) token still decodes to a `null`
payload. -/
theorem C5_decode_hello_shape_witness :
    MiioPacket.decode cryptoStub jsonStub
      ([0x21, 0x31, 0, 32, 0, 0, 0, 0, 0, 0, 0, 9, 0, 0, 0, 5] ++
        List.replicate 16 7 ++ List.replicate 8 255) [1, 2, 3] =
      .ok { deviceId := 9, stamp := 5, payload := none } := by
  have h := C5_decode_hello_shape cryptoStub jsonStub
    ([0x21, 0x31, 0, 32, 0, 0, 0, 0, 0, 0, 0, 9, 0, 0, 0, 5] ++
      List.replicate 16 7 ++ List.replicate 8 255)
    (by decide) (by decide) (by decide) [1, 2, 3]
  simpa [readUInt32BE] using h

/-! ### Congruence of `decode` in its input -/

/-- Bytes at indices below `n` agree when the length-`n` prefixes agree. -/
theorem getD_eq_of_take_eq {b1 b2 : List Nat} {n : Nat} (h : b1.take n = b2.take n)
    {i : Nat} (hi : i < n) : b1.getD i 0 = b2.getD i 0 := by
  have h1 : (b1.take n).getD i 0 = b1.getD i 0 := by
    simp [List.getD_eq_getElem?_getD, List.getElem?_take, hi]
  have h2 : (b2.take n).getD i 0 = b2.getD i 0 := by
    simp [List.getD_eq_getElem?_getD, List.getElem?_take, hi]
  rw [← h1, ← h2, h]

/-- Congruence: `MiioPacket.decode` depends on its input only through the four header
reads and the body slice `(take length).drop 32`. -/
theorem decode_congr (P : CryptoPrims) (J : JsonPrims) (data1 data2 token : List Nat)
    (h1 : 32 ≤ data1.length) (h2 : 32 ≤ data2.length)
    (hm : readUInt16BE data1 0 = readUInt16BE data2 0)
    (hl : readUInt16BE data1 2 = readUInt16BE data2 2)
    (hd : readUInt32BE data1 8 = readUInt32BE data2 8)
    (hs : readUInt32BE data1 12 = readUInt32BE data2 12)
    (hb : (data1.take (readUInt16BE data1 2)).drop 32 =
      (data2.take (readUInt16BE data2 2)).drop 32) :
    MiioPacket.decode P J data1 token = MiioPacket.decode P J data2 token := by
  simp only [MiioPacket.decode, MiioPacket.HEADER_SIZE, MiioPacket.MAGIC]
  rw [if_neg (show ¬data1.length < 32 by omega),
    if_neg (show ¬data2.length < 32 by omega), hb, hm, hl, hd, hs]

/-! ### C9: the checksum field is never verified on receive -/

/-- C9: two inputs of equal length, at least 32 bytes, with valid magic and a
length field above 32, that differ only in the checksum field at offsets
`[16, 32)`, decode to identical results with the same token: the MD5 checksum
written by `encode` is never checked by `decode`. -/
theorem C9_decode_ignores_checksum (P : CryptoPrims) (J : JsonPrims)
    (b1 b2 token : List Nat)
    (hlen : b1.length = b2.length) (h32 : 32 ≤ b1.length)
    (hpre : b1.take 16 = b2.take 16) (hsuf : b1.drop 32 = b2.drop 32)
    (hmagic : readUInt16BE b1 0 = 0x2131) (hbig : 32 < readUInt16BE b1 2) :
    MiioPacket.decode P J b1 token = MiioPacket.decode P J b2 token := by
  have g : ∀ i, i < 16 → b1.getD i 0 = b2.getD i 0 :=
    fun i hi => getD_eq_of_take_eq hpre hi
  have hm : readUInt16BE b1 0 = readUInt16BE b2 0 := by
    simp only [readUInt16BE]
    rw [g 0 (by omega), g 1 (by omega)]
  have hl : readUInt16BE b1 2 = readUInt16BE b2 2 := by
    simp only [readUInt16BE]
    rw [g 2 (by omega), g 3 (by omega)]
  have hd : readUInt32BE b1 8 = readUInt32BE b2 8 := by
    simp only [readUInt32BE]
    rw [g 8 (by omega), g 9 (by omega), g 10 (by omega), g 11 (by omega)]
  have hs : readUInt32BE b1 12 = readUInt32BE b2 12 := by
    simp only [readUInt32BE]
    rw [g 12 (by omega), g 13 (by omega), g 14 (by omega), g 15 (by omega)]
  have hb : (b1.take (readUInt16BE b1 2)).drop 32 =
      (b2.take (readUInt16BE b2 2)).drop 32 := by
    rw [List.drop_take, List.drop_take, hsuf, hl]
  exact decode_congr P J b1 b2 token h32 (hlen ▸ h32) hm hl hd hs hb

/-- C9 witness: two concrete 34-byte packets differing only in their checksum
fields decode identically. -/
theorem C9_decode_ignores_checksum_witness :
    MiioPacket.decode cryptoStub jsonStub
      ([0x21, 0x31, 0, 34, 0, 0, 0, 0, 0, 0, 0, 1, 0, 0, 0, 2] ++
        List.replicate 16 7 ++ [5, 6]) (List.replicate 16 0) =
    MiioPacket.decode cryptoStub jsonStub
      ([0x21, 0x31, 0, 34, 0, 0, 0, 0, 0, 0, 0, 1, 0, 0, 0, 2] ++
        List.replicate 16 8 ++ [5, 6]) (List.replicate 16 0) :=
  C9_decode_ignores_checksum cryptoStub jsonStub _ _ (List.replicate 16 0)
    (by decide) (by decide) (by decide) (by decide) (by decide) (by decide)

/-! ### C10: bytes past the declared total length are ignored -/

/-- C10: appending any suffix to a buffer of at least 32 bytes whose length
field does not exceed the buffer's size leaves the decode result unchanged:
the body is taken as bytes `[32, length)`, not everything to the end. -/
theorem C10_decode_ignores_trailing (P : CryptoPrims) (J : JsonPrims)
    (b s token : List Nat) (h32 : 32 ≤ b.length)
    (hfit : readUInt16BE b 2 ≤ b.length) :
    MiioPacket.decode P J (b ++ s) token = MiioPacket.decode P J b token := by
  have g : ∀ i, i < b.length → (b ++ s).getD i 0 = b.getD i 0 :=
    fun i hi => List.getD_append b s 0 i hi
  have hm : readUInt16BE (b ++ s) 0 = readUInt16BE b 0 := by
    simp only [readUInt16BE]
    rw [g 0 (by omega), g 1 (by omega)]
  have hl : readUInt16BE (b ++ s) 2 = readUInt16BE b 2 := by
    simp only [readUInt16BE]
    rw [g 2 (by omega), g 3 (by omega)]
  have hd : readUInt32BE (b ++ s) 8 = readUInt32BE b 8 := by
    simp only [readUInt32BE]
    rw [g 8 (by omega), g 9 (by omega), g 10 (by omega), g 11 (by omega)]
  have hs : readUInt32BE (b ++ s) 12 = readUInt32BE b 12 := by
    simp only [readUInt32BE]
    rw [g 12 (by omega), g 13 (by omega), g 14 (by omega), g 15 (by omega)]
  have hb : ((b ++ s).take (readUInt16BE (b ++ s) 2)).drop 32 =
      (b.take (readUInt16BE b 2)).drop 32 := by
    rw [hl, List.take_append_of_le_length hfit]
  have hlen2 : 32 ≤ (b ++ s).length := by
    rw [List.length_append]; omega
  exact decode_congr P J (b ++ s) b token hlen2 h32 hm hl hd hs hb

/-- C10 witness: a concrete 33-byte packet with length field 33 decodes the
same with and without two trailing junk bytes. -/
theorem C10_decode_ignores_trailing_witness :
    MiioPacket.decode cryptoStub jsonStub
      (([0x21, 0x31, 0, 33, 0, 0, 0, 0, 0, 0, 0, 1, 0, 0, 0, 2] ++
        List.replicate 16 7 ++ [5]) ++ [9, 9]) (List.replicate 16 0) =
    MiioPacket.decode cryptoStub jsonStub
      ([0x21, 0x31, 0, 33, 0, 0, 0, 0, 0, 0, 0, 1, 0, 0, 0, 2] ++
        List.replicate 16 7 ++ [5]) (List.replicate 16 0) :=
  C10_decode_ignores_trailing cryptoStub jsonStub _ [9, 9] (List.replicate 16 0)
    (by decide) (by decide)

/-! ### C1: encode/decode round trip -/

theorem take_all_of_len_eq {l : List Nat} {n : Nat} (h : l.length = n) : l.take n = l := by
  rw [← h]
  exact List.take_length l

/-- Reading two bytes at offset 0 of an explicit cons chain. -/
theorem read16_at0 (x0 x1 : Nat) (r : List Nat) :
    readUInt16BE (x0 :: x1 :: r) 0 = x0 * 256 + x1 := rfl

/-- Reading two bytes at offset 2 of an explicit cons chain. -/
theorem read16_at2 (x0 x1 x2 x3 : Nat) (r : List Nat) :
    readUInt16BE (x0 :: x1 :: x2 :: x3 :: r) 2 = x2 * 256 + x3 := rfl

/-- Reading four bytes at offset 8 of an explicit cons chain. -/
theorem read32_at8 (x0 x1 x2 x3 x4 x5 x6 x7 x8 x9 xa xb : Nat) (r : List Nat) :
    readUInt32BE (x0 :: x1 :: x2 :: x3 :: x4 :: x5 :: x6 :: x7 :: x8 :: x9 :: xa :: xb :: r) 8 =
      x8 * 16777216 + x9 * 65536 + xa * 256 + xb := rfl

/-- Reading four bytes at offset 12 of an explicit cons chain. -/
theorem read32_at12 (x0 x1 x2 x3 x4 x5 x6 x7 x8 x9 xa xb xc xd xe xf : Nat) (r : List Nat) :
    readUInt32BE (x0 :: x1 :: x2 :: x3 :: x4 :: x5 :: x6 :: x7 :: x8 :: x9 :: xa :: xb ::
      xc :: xd :: xe :: xf :: r) 12 = xc * 16777216 + xd * 65536 + xe * 256 + xf := rfl

/-- Dropping 32 elements strips 16 explicit heads and 16 more of the tail. -/
theorem drop32_cons16 (x0 x1 x2 x3 x4 x5 x6 x7 x8 x9 xa xb xc xd xe xf : Nat) (r : List Nat) :
    List.drop 32 (x0 :: x1 :: x2 :: x3 :: x4 :: x5 :: x6 :: x7 :: x8 :: x9 :: xa :: xb ::
      xc :: xd :: xe :: xf :: r) = List.drop 16 r := rfl

/-- Applying `bufCopy` with a 16-byte source at offset 16 into a 32-byte buffer replaces
the second half. -/
theorem bufCopy_at16 {hdr src : List Nat} (hlen : hdr.length = 32) (hsrc : src.length = 16) :
    bufCopy hdr 16 src = hdr.take 16 ++ src := by
  unfold bufCopy
  have h1 : src.take (hdr.length - 16) = src := by
    rw [hlen]
    exact take_all_of_len_eq hsrc
  have h2 : hdr.drop (16 + src.length) = [] := by
    refine List.drop_eq_nil_of_le ?_
    omega
  rw [h1, h2, List.append_nil]

/-- Decoding a well-formed wire packet `pre16 ++ checksum ++ body` runs the
decrypt/parse pipeline on exactly `body`. -/
theorem decode_wire (P : CryptoPrims) (J : JsonPrims) (deviceId stamp : Nat)
    (cks body token : List Nat)
    (hdev : deviceId < 4294967296) (hstamp : stamp < 4294967296)
    (hcks : cks.length = 16) (hbody : body ≠ []) (hfit : 32 + body.length ≤ 65535) :
    MiioPacket.decode P J
      (u16be MiioPacket.MAGIC ++ u16be (32 + body.length) ++ u32be 0 ++
        u32be deviceId ++ u32be stamp ++ cks ++ body) token =
      (match MiioCrypto.create P token with
       | .error e => .error e
       | .ok c =>
         match MiioCrypto.decrypt P c body with
         | .error e => .error e
         | .ok decrypted =>
           match J.parse decrypted with
           | .error s => .error (.jsonParseFailed s)
           | .ok payload =>
             .ok { deviceId := deviceId, stamp := stamp, payload := some payload }) := by
  have hbl : 1 ≤ body.length := by
    cases body with
    | nil => exact absurd rfl hbody
    | cons a l => simp
  have hp : (u16be MiioPacket.MAGIC ++ u16be (32 + body.length) ++ u32be 0 ++
      u32be deviceId ++ u32be stamp ++ cks ++ body) =
      33 :: 49 :: ((32 + body.length) / 256 % 256) :: ((32 + body.length) % 256) ::
      0 :: 0 :: 0 :: 0 ::
      (deviceId / 16777216 % 256) :: (deviceId / 65536 % 256) ::
      (deviceId / 256 % 256) :: (deviceId % 256) ::
      (stamp / 16777216 % 256) :: (stamp / 65536 % 256) ::
      (stamp / 256 % 256) :: (stamp % 256) :: (cks ++ body) := by
    norm_num [u16be, u32be, MiioPacket.MAGIC]
  rw [hp]
  have hlen2 : (33 :: 49 :: ((32 + body.length) / 256 % 256) :: ((32 + body.length) % 256) ::
      0 :: 0 :: 0 :: 0 ::
      (deviceId / 16777216 % 256) :: (deviceId / 65536 % 256) ::
      (deviceId / 256 % 256) :: (deviceId % 256) ::
      (stamp / 16777216 % 256) :: (stamp / 65536 % 256) ::
      (stamp / 256 % 256) :: (stamp % 256) :: (cks ++ body)).length = 32 + body.length := by
    simp [hcks]
    omega
  have hrecl : ((32 + body.length) / 256 % 256) * 256 + (32 + body.length) % 256 =
      32 + body.length := by omega
  have hrecd : deviceId / 16777216 % 256 * 16777216 + deviceId / 65536 % 256 * 65536 +
      deviceId / 256 % 256 * 256 + deviceId % 256 = deviceId := by omega
  have hrecs : stamp / 16777216 % 256 * 16777216 + stamp / 65536 % 256 * 65536 +
      stamp / 256 % 256 * 256 + stamp % 256 = stamp := by omega
  simp only [MiioPacket.decode, MiioPacket.HEADER_SIZE, MiioPacket.MAGIC,
    read16_at0, read16_at2, read32_at8, read32_at12, hrecl, hrecd, hrecs]
  rw [if_neg (by rw [hlen2]; omega), if_neg (by norm_num), if_neg (by omega)]
  have hslice : ((33 :: 49 :: ((32 + body.length) / 256 % 256) :: ((32 + body.length) % 256) ::
      0 :: 0 :: 0 :: 0 ::
      (deviceId / 16777216 % 256) :: (deviceId / 65536 % 256) ::
      (deviceId / 256 % 256) :: (deviceId % 256) ::
      (stamp / 16777216 % 256) :: (stamp / 65536 % 256) ::
      (stamp / 256 % 256) :: (stamp % 256) :: (cks ++ body)).take (32 + body.length)).drop 32 =
      body := by
    rw [take_all_of_len_eq hlen2, drop32_cons16, ← hcks, List.drop_left]
  rw [hslice]

/-- C1: whenever `encode(deviceId, stamp, token, payload)` produces a packet,
decoding that packet with the same token returns the same deviceId, the same
stamp, and a structurally equal payload.  The hypotheses are the contracts of
the external primitives: MD5 digests are 16 bytes, AES-CBC decryption inverts
encryption, ciphertexts are nonempty (PKCS#7 always pads), and the payload is
JSON-serializable (parsing its serialization returns an equal value). -/
theorem C1_encode_decode_roundtrip (P : CryptoPrims) (J : JsonPrims)
    (hmd5len : ∀ b, (P.md5 b).length = 16)
    (hinv : ∀ key iv pt, P.aesDecrypt key iv (P.aesEncrypt key iv pt) = .ok pt)
    (hne : ∀ key iv pt, P.aesEncrypt key iv pt ≠ [])
    (deviceId stamp : Nat) (token : List Nat) (payload : Json) (pkt : List Nat)
    (hjson : J.parse (J.stringify payload) = .ok payload)
    (henc : MiioPacket.encode P J deviceId stamp token payload = .ok pkt) :
    MiioPacket.decode P J pkt token =
      .ok { deviceId := deviceId, stamp := stamp, payload := some payload } := by
  by_cases htok : token.length = 16
  case neg =>
    exfalso
    unfold MiioPacket.encode MiioCrypto.create at henc
    rw [if_pos htok] at henc
    simp at henc
  case pos =>
    have hcreate : MiioCrypto.create P token =
        .ok { key := P.md5 token, iv := P.md5 (P.md5 token ++ token) } := by
      unfold MiioCrypto.create
      rw [if_neg (by omega)]
    unfold MiioPacket.encode at henc
    rw [hcreate] at henc
    simp only [MiioCrypto.encrypt, MiioPacket.HEADER_SIZE] at henc
    set E := P.aesEncrypt (P.md5 token) (P.md5 (P.md5 token ++ token))
      (J.stringify payload) with hEdef
    split at henc
    case isTrue h => exact absurd henc (by simp)
    case isFalse hguard =>
      push_neg at hguard
      obtain ⟨hfit, hdev, hstamp⟩ := hguard
      rw [Except.ok.injEq] at henc
      subst henc
      have hlen0 : (u16be MiioPacket.MAGIC ++ u16be (32 + E.length) ++ u32be 0 ++
          u32be deviceId ++ u32be stamp ++ List.replicate 16 0).length = 32 := by
        simp [u16be, u32be]
      have h1 : bufCopy (u16be MiioPacket.MAGIC ++ u16be (32 + E.length) ++ u32be 0 ++
          u32be deviceId ++ u32be stamp ++ List.replicate 16 0) 16 token =
          (u16be MiioPacket.MAGIC ++ u16be (32 + E.length) ++ u32be 0 ++
            u32be deviceId ++ u32be stamp ++ List.replicate 16 0).take 16 ++ token :=
        bufCopy_at16 hlen0 htok
      rw [h1]
      set T := (u16be MiioPacket.MAGIC ++ u16be (32 + E.length) ++ u32be 0 ++
        u32be deviceId ++ u32be stamp ++ List.replicate 16 0).take 16 with hTdef
      have hTlen : T.length = 16 := by
        rw [hTdef, List.length_take, hlen0]
        decide
      have hlen1 : (T ++ token).length = 32 := by
        rw [List.length_append, hTlen, htok]
      have hcksl : (P.md5 ((T ++ token) ++ E)).length = 16 := hmd5len _
      have h2 : bufCopy (T ++ token) 16 (P.md5 ((T ++ token) ++ E)) =
          (T ++ token).take 16 ++ P.md5 ((T ++ token) ++ E) :=
        bufCopy_at16 hlen1 hcksl
      have h3 : (T ++ token).take 16 = T := by
        rw [List.take_append_of_le_length hTlen.symm.le]
        exact take_all_of_len_eq hTlen
      rw [h2, h3]
      have htake : T = u16be MiioPacket.MAGIC ++ u16be (32 + E.length) ++ u32be 0 ++
          u32be deviceId ++ u32be stamp := by
        have hassoc : u16be MiioPacket.MAGIC ++ u16be (32 + E.length) ++ u32be 0 ++
            u32be deviceId ++ u32be stamp ++ List.replicate 16 0 =
            (u16be MiioPacket.MAGIC ++ u16be (32 + E.length) ++ u32be 0 ++
              u32be deviceId ++ u32be stamp) ++ List.replicate 16 0 := by
          simp [List.append_assoc]
        have hpre16 : (u16be MiioPacket.MAGIC ++ u16be (32 + E.length) ++ u32be 0 ++
            u32be deviceId ++ u32be stamp).length = 16 := by
          simp [u16be, u32be]
        rw [hTdef, hassoc, List.take_append_of_le_length hpre16.symm.le]
        exact take_all_of_len_eq hpre16
      rw [htake]
      have hw := decode_wire P J deviceId stamp
        (P.md5 (((u16be MiioPacket.MAGIC ++ u16be (32 + E.length) ++ u32be 0 ++
          u32be deviceId ++ u32be stamp) ++ token) ++ E)) E token
        (by omega) (by omega) (hmd5len _) (hne _ _ _) (by omega)
      have hgoal : ((u16be MiioPacket.MAGIC ++ u16be (32 + E.length) ++ u32be 0 ++
            u32be deviceId ++ u32be stamp) ++
            P.md5 (((u16be MiioPacket.MAGIC ++ u16be (32 + E.length) ++ u32be 0 ++
              u32be deviceId ++ u32be stamp) ++ token) ++ E)) ++ E =
          u16be MiioPacket.MAGIC ++ u16be (32 + E.length) ++ u32be 0 ++
            u32be deviceId ++ u32be stamp ++
            P.md5 (((u16be MiioPacket.MAGIC ++ u16be (32 + E.length) ++ u32be 0 ++
              u32be deviceId ++ u32be stamp) ++ token) ++ E) ++ E := by
        simp [List.append_assoc]
      rw [hgoal, hw, hcreate]
      simp [MiioCrypto.decrypt, hEdef, hinv, hjson]

/-- C1 witness: a concrete encode at deviceId 7, stamp 3, an all-zero 16-byte
token and payload `null` decodes back to deviceId 7, stamp 3 and the same
payload. -/
theorem C1_encode_decode_roundtrip_witness :
    MiioPacket.encode cryptoStub jsonStubNull 7 3 (List.replicate 16 0) Json.null =
      .ok ([33, 49, 0, 37, 0, 0, 0, 0, 0, 0, 0, 7, 0, 0, 0, 3] ++ List.replicate 16 0 ++
        [0, 110, 117, 108, 108]) ∧
    MiioPacket.decode cryptoStub jsonStubNull
      ([33, 49, 0, 37, 0, 0, 0, 0, 0, 0, 0, 7, 0, 0, 0, 3] ++ List.replicate 16 0 ++
        [0, 110, 117, 108, 108]) (List.replicate 16 0) =
      .ok { deviceId := 7, stamp := 3, payload := some Json.null } := by
  refine ⟨by rfl, ?_⟩
  exact C1_encode_decode_roundtrip cryptoStub jsonStubNull
    (fun b => by simp [cryptoStub])
    (fun key iv pt => rfl)
    (fun key iv pt => by simp [cryptoStub])
    7 3 (List.replicate 16 0) Json.null
    ([33, 49, 0, 37, 0, 0, 0, 0, 0, 0, 0, 7, 0, 0, 0, 3] ++ List.replicate 16 0 ++
      [0, 110, 117, 108, 108])
    rfl (by rfl)

/-! ### Discovery (`discoverMiioDevices`) -/

/-- The all-zero token discovery decodes with (`EMPTY_TOKEN` in the source). -/
def EMPTY_TOKEN : List Nat := List.replicate 16 0

/-- A discovered-device record (`MiioDiscoveredDevice` in the source);
`token` is populated only when `includeToken` is set. -/
structure MiioDiscoveredDevice where
  address : String
  deviceId : Nat
  stamp : Nat
  token : Option (List Nat)
deriving Repr, DecidableEq

/-- JavaScript `Map.set` restricted to string keys, on the map's association
list in insertion order: replace in place when the key exists, else append. -/
def mapSet (m : List (String × MiioDiscoveredDevice)) (k : String)
    (v : MiioDiscoveredDevice) : List (String × MiioDiscoveredDevice) :=
  if m.any (fun p => p.1 == k) then
    m.map (fun p => if p.1 = k then (k, v) else p)
  else
    m ++ [(k, v)]

/-- The record discovery's `onMessage` builds for one datagram: `none` when
`MiioPacket.decode` (or, with `includeToken`, `extractToken`) throws — the
catch block then leaves the results untouched. -/
def discoveryRecord (P : CryptoPrims) (J : JsonPrims) (includeToken : Bool)
    (msg : List Nat) (addr : String) : Option MiioDiscoveredDevice :=
  match MiioPacket.decode P J msg EMPTY_TOKEN with
  | .error _ => none
  | .ok dec =>
    if includeToken then
      match MiioPacket.extractToken msg with
      | .error _ => none
      | .ok t => some ⟨addr, dec.deviceId, dec.stamp, some t⟩
    else
      some ⟨addr, dec.deviceId, dec.stamp, none⟩

/-- One invocation of discovery's `onMessage` callback: decode, build the
record, and store it keyed by source address; ignore undecodable datagrams. -/
def onMessage (P : CryptoPrims) (J : JsonPrims) (includeToken : Bool)
    (results : List (String × MiioDiscoveredDevice)) (msg : List Nat) (addr : String) :
    List (String × MiioDiscoveredDevice) :=
  match discoveryRecord P J includeToken msg addr with
  | none => results
  | some d => mapSet results addr d

/-- The result set after one discovery window that received `msgs` (each a
datagram with its source address), in arrival order. -/
def discoverCollect (P : CryptoPrims) (J : JsonPrims) (includeToken : Bool)
    (msgs : List (List Nat × String)) : List (String × MiioDiscoveredDevice) :=
  msgs.foldl (fun r m => onMessage P J includeToken r m.1 m.2) []

/-- The record of the most recent decodable response from address `a` within
`msgs` (the claim's reference point: last-write-wins per address). -/
def lastResponse (P : CryptoPrims) (J : JsonPrims) (includeToken : Bool)
    (msgs : List (List Nat × String)) (a : String) : Option MiioDiscoveredDevice :=
  msgs.foldl (fun o m =>
    if m.2 = a then
      match discoveryRecord P J includeToken m.1 m.2 with
      | some d => some d
      | none => o
    else o) none

/-! #### `mapSet` lemmas -/

theorem lookup_map_replace (m : List (String × MiioDiscoveredDevice)) (k a : String)
    (v : MiioDiscoveredDevice) (h : a ≠ k) :
    (m.map (fun p => if p.1 = k then (k, v) else p)).lookup a = m.lookup a := by
  induction m with
  | nil => rfl
  | cons p t ih =>
    obtain ⟨px, pv⟩ := p
    by_cases hp : px = k
    · have ha1 : (a == k) = false := beq_eq_false_iff_ne.mpr h
      have ha2 : (a == px) = false :=
        beq_eq_false_iff_ne.mpr (fun he => h (he.trans hp))
      simp only [List.map_cons, if_pos hp]
      simp [List.lookup, ha1, ha2, ih]
    · simp only [List.map_cons, if_neg hp]
      cases hax : (a == px) <;> simp [List.lookup, hax, ih]

theorem lookup_map_replace_self (m : List (String × MiioDiscoveredDevice)) (k : String)
    (v : MiioDiscoveredDevice) (hany : m.any (fun p => p.1 == k) = true) :
    (m.map (fun p => if p.1 = k then (k, v) else p)).lookup k = some v := by
  induction m with
  | nil => simp at hany
  | cons p t ih =>
    obtain ⟨px, pv⟩ := p
    by_cases hp : px = k
    · simp only [List.map_cons, if_pos hp]
      simp [List.lookup]
    · have hb : (px == k) = false := beq_eq_false_iff_ne.mpr hp
      have hk : (k == px) = false :=
        beq_eq_false_iff_ne.mpr (fun he => hp he.symm)
      have hany2 : t.any (fun q => q.1 == k) = true := by
        rw [List.any_cons] at hany
        simp only [hb] at hany
        simpa using hany
      simp only [List.map_cons, if_neg hp]
      simp [List.lookup, hk, ih hany2]

theorem lookup_append_single_ne (m : List (String × MiioDiscoveredDevice)) (k a : String)
    (v : MiioDiscoveredDevice) (h : a ≠ k) :
    (m ++ [(k, v)]).lookup a = m.lookup a := by
  induction m with
  | nil => simp [List.lookup, beq_eq_false_iff_ne.mpr h]
  | cons p t ih =>
    obtain ⟨px, pv⟩ := p
    rw [List.cons_append]
    cases hax : (a == px) <;> simp [List.lookup, hax, ih]

theorem lookup_append_single_self (m : List (String × MiioDiscoveredDevice)) (k : String)
    (v : MiioDiscoveredDevice) (hany : m.any (fun p => p.1 == k) = false) :
    (m ++ [(k, v)]).lookup k = some v := by
  induction m with
  | nil => simp [List.lookup]
  | cons p t ih =>
    obtain ⟨px, pv⟩ := p
    rw [List.any_cons] at hany
    have h1 : (px == k) = false := by
      cases hpk : (px == k) with
      | true => rw [hpk] at hany; simp at hany
      | false => rfl
    have h2 : t.any (fun q => q.1 == k) = false := by
      rw [h1] at hany
      simpa using hany
    have hk : (k == px) = false :=
      beq_eq_false_iff_ne.mpr (fun he => by simp [he.symm] at h1)
    rw [List.cons_append]
    simp [List.lookup, hk, ih h2]

/-- The `Map.set` lookup semantics: the written key reads back the new value,
every other key is untouched. -/
theorem lookup_mapSet (m : List (String × MiioDiscoveredDevice)) (k a : String)
    (v : MiioDiscoveredDevice) :
    (mapSet m k v).lookup a = if a = k then some v else m.lookup a := by
  unfold mapSet
  by_cases hak : a = k
  · subst hak
    rw [if_pos rfl]
    cases hany : m.any (fun p => p.1 == a) with
    | true => rw [if_pos rfl]; exact lookup_map_replace_self m a v hany
    | false => rw [if_neg (by simp)]; exact lookup_append_single_self m a v hany
  · rw [if_neg hak]
    cases hany : m.any (fun p => p.1 == k) with
    | true => rw [if_pos rfl]; exact lookup_map_replace m k a v hak
    | false => rw [if_neg (by simp)]; exact lookup_append_single_ne m k a v hak

/-- The `Map.set` operation preserves distinctness of keys. -/
theorem nodup_keys_mapSet (m : List (String × MiioDiscoveredDevice)) (k : String)
    (v : MiioDiscoveredDevice) (h : (m.map Prod.fst).Nodup) :
    ((mapSet m k v).map Prod.fst).Nodup := by
  unfold mapSet
  cases hany : m.any (fun p => p.1 == k) with
  | true =>
    rw [if_pos rfl]
    have hkeys : ∀ mm : List (String × MiioDiscoveredDevice),
        (mm.map (fun p => if p.1 = k then (k, v) else p)).map Prod.fst =
          mm.map Prod.fst := by
      intro mm
      induction mm with
      | nil => rfl
      | cons p t ih =>
        obtain ⟨px, pv⟩ := p
        by_cases hp : px = k
        · simp only [List.map_cons, if_pos hp]
          exact congrArg₂ List.cons hp.symm ih
        · simp only [List.map_cons, if_neg hp]
          exact congrArg (List.cons px) ih
    rw [hkeys]
    exact h
  | false =>
    rw [if_neg (by simp)]
    have hnotin : k ∉ m.map Prod.fst := by
      intro hmem
      obtain ⟨p, hp, hpk⟩ := List.mem_map.mp hmem
      rw [List.any_eq_false] at hany
      exact absurd (beq_iff_eq.mpr hpk) (by simpa using hany p hp)
    rw [List.map_append]
    simp [List.nodup_append, h, hnotin]

/-- Invariant of the discovery collection fold: keys stay distinct, and each
key reads back as the last decodable response for that address. -/
theorem discovery_fold_invariant (P : CryptoPrims) (J : JsonPrims) (inc : Bool)
    (msgs : List (List Nat × String)) (acc : List (String × MiioDiscoveredDevice))
    (hnd : (acc.map Prod.fst).Nodup) :
    ((msgs.foldl (fun r m => onMessage P J inc r m.1 m.2) acc).map Prod.fst).Nodup ∧
    ∀ a, (msgs.foldl (fun r m => onMessage P J inc r m.1 m.2) acc).lookup a =
      msgs.foldl (fun o m =>
        if m.2 = a then
          match discoveryRecord P J inc m.1 m.2 with
          | some d => some d
          | none => o
        else o) (acc.lookup a) := by
  induction msgs generalizing acc with
  | nil => exact ⟨hnd, fun a => rfl⟩
  | cons m ms ih =>
    obtain ⟨msg, addr⟩ := m
    simp only [List.foldl_cons]
    have hstep_nd : ((onMessage P J inc acc msg addr).map Prod.fst).Nodup := by
      unfold onMessage
      cases discoveryRecord P J inc msg addr with
      | none => exact hnd
      | some d => exact nodup_keys_mapSet acc addr d hnd
    obtain ⟨h1, h2⟩ := ih (onMessage P J inc acc msg addr) hstep_nd
    refine ⟨h1, fun a => ?_⟩
    rw [h2 a]
    congr 1
    unfold onMessage
    cases hrec : discoveryRecord P J inc msg addr with
    | none =>
      by_cases haddr : addr = a <;> simp [haddr]
    | some d =>
      rw [lookup_mapSet]
      by_cases haddr : addr = a
      · subst haddr
        simp
      · rw [if_neg (fun h : a = addr => haddr h.symm), if_neg haddr]

/-- C8: over any sequence of datagrams in one discovery window, the result
holds exactly one record per distinct source address, and the record for each
address is the one built from the most recent decodable response from that
address (undecodable datagrams contribute nothing and disturb nothing). -/
theorem C8_discovery_dedup (P : CryptoPrims) (J : JsonPrims) (includeToken : Bool)
    (msgs : List (List Nat × String)) :
    ((discoverCollect P J includeToken msgs).map Prod.fst).Nodup ∧
    ∀ a, (discoverCollect P J includeToken msgs).lookup a =
      lastResponse P J includeToken msgs a := by
  unfold discoverCollect lastResponse
  exact discovery_fold_invariant P J includeToken msgs [] (by simp)

/-! ### Transport (`MiioTransport`) -/

/-- The session state held by a `MiioTransport` instance.  The pending-request
map is represented by its list of in-flight message ids (the stored callbacks
are modelled by the `TransportEvent`s the state transitions emit). -/
structure TransportState where
  token : List Nat
  socketOpen : Bool
  deviceId : Nat
  stamp : Nat
  lastHandshake : Nat
  messageId : Int
  pending : List Int
deriving Repr

/-- Completions the transport performs on pending-request promises.  The
`Error` objects are represented structurally: `rejectedDestroyed` stands for
the rejection with the `Transport destroyed` error, `rejectedRemote` for the
rejection built from the device's JSON-RPC error object. -/
inductive TransportEvent where
  | resolved (id : Int) (result : Option Json) : TransportEvent
  | rejectedRemote (id : Int) (error : Json) : TransportEvent
  | rejectedDestroyed (id : Int) : TransportEvent
deriving Repr

/-- JavaScript truthiness of a JSON value, as tested by `if (response.error)`. -/
def Json.truthy : Json → Bool
  | .null => false
  | .bool b => b
  | .num n => n != 0
  | .str s => s != ""
  | .arr _ => true
  | .obj _ => true

/-- Models `MiioTransport.handleMessage`: decode the datagram with the stored token;
when the payload is an object carrying an `id` field whose numeric value
matches a pending request, remove that entry and resolve it with the `result`
field (or reject it with the `error` object when that field is truthy).
Malformed packets, non-object payloads, missing or non-numeric ids, and ids
matching no pending request are all silently ignored. -/
def MiioTransport.handleMessage (P : CryptoPrims) (J : JsonPrims) (st : TransportState)
    (data : List Nat) : TransportState × List TransportEvent :=
  match MiioPacket.decode P J data st.token with
  | .error _ => (st, [])
  | .ok dec =>
    match dec.payload with
    | none => (st, [])
    | some payload =>
      match payload with
      | .obj fields =>
        match fields.lookup "id" with
        | none => (st, [])
        | some idv =>
          match idv with
          | .num rid =>
            if st.pending.contains rid then
              let st1 := { st with pending := st.pending.erase rid }
              match fields.lookup "error" with
              | some e =>
                if e.truthy then (st1, [.rejectedRemote rid e])
                else (st1, [.resolved rid (fields.lookup "result")])
              | none => (st1, [.resolved rid (fields.lookup "result")])
            else (st, [])
          | _ => (st, [])
      | _ => (st, [])

/-- The JSON-RPC payload `{ id, method, params }` that `send` builds. -/
def sendPayload (id : Int) (method : String) (params : List Json) : Json :=
  .obj [("id", .num id), ("method", .str method), ("params", .arr params)]

/-- The synchronous body of `MiioTransport.send` after the staleness check
(when no re-handshake is required): allocate the next message id, increment
the session stamp, encode the payload with the stored deviceId/stamp/token,
ensure a socket exists (creating one lazily when there is none) and register
the pending entry.  An encode failure propagates after the id and stamp
increments have happened, as in the source. -/
def MiioTransport.sendStep (P : CryptoPrims) (J : JsonPrims) (st : TransportState)
    (method : String) (params : List Json) :
    TransportState × Except MiioError (Int × List Nat) :=
  let id := st.messageId
  let st1 := { st with messageId := st.messageId + 1, stamp := st.stamp + 1 }
  match MiioPacket.encode P J st1.deviceId st1.stamp st1.token
      (sendPayload id method params) with
  | .error e => (st1, .error e)
  | .ok packet =>
    ({ st1 with socketOpen := true, pending := st1.pending ++ [id] }, .ok (id, packet))

/-- Models the response handling of `MiioTransport.handshake`: ensure a socket exists,
decode the inbound datagram, and on success store the learned deviceId and
stamp and record `now` as the last-handshake time. -/
def MiioTransport.handshakeStep (P : CryptoPrims) (J : JsonPrims) (st : TransportState)
    (msg : List Nat) (now : Nat) :
    TransportState × Except MiioError (Nat × Nat) :=
  let st0 := { st with socketOpen := true }
  match MiioPacket.decode P J msg st0.token with
  | .error e => (st0, .error e)
  | .ok dec =>
    ({ st0 with deviceId := dec.deviceId, stamp := dec.stamp, lastHandshake := now },
      .ok (dec.deviceId, dec.stamp))

/-- Models `MiioTransport.destroy`: reject every pending request with the destroyed
condition, clear the map, and close the socket. -/
def MiioTransport.destroy (st : TransportState) : TransportState × List TransportEvent :=
  ({ st with pending := [], socketOpen := false },
    st.pending.map TransportEvent.rejectedDestroyed)

/-- The staleness test at the top of `send` (re-handshake when more than
60 seconds have elapsed). -/
def MiioTransport.needsHandshake (st : TransportState) (now : Nat) : Bool :=
  decide (60000 < now - st.lastHandshake)

/-! ### C2: responses with unmatched ids leave pending commands untouched -/

/-- C2: with a command in flight under id `n`, an inbound datagram that
decodes to an object payload whose `id` is some `rid` matching no pending
request leaves the state unchanged (in particular the entry for `n`) and
completes nothing: the unmatched response is ignored. -/
theorem C2_unmatched_response_ignored (P : CryptoPrims) (J : JsonPrims)
    (st : TransportState) (data : List Nat) (n rid : Int) (dec : MiioPacket.Decoded)
    (fields : List (String × Json))
    (hn : n ∈ st.pending)
    (hdec : MiioPacket.decode P J data st.token = .ok dec)
    (hpayload : dec.payload = some (.obj fields))
    (hid : fields.lookup "id" = some (.num rid))
    (hmiss : rid ∉ st.pending) :
    MiioTransport.handleMessage P J st data = (st, []) ∧
    n ∈ (MiioTransport.handleMessage P J st data).1.pending := by
  have hc : st.pending.contains rid = false := by simpa using hmiss
  have hmain : MiioTransport.handleMessage P J st data = (st, []) := by
    simp only [MiioTransport.handleMessage, hdec, hpayload, hid, hc]
    simp
  exact ⟨hmain, by rw [hmain]; exact hn⟩

/-- A concrete transport state used to evaluate the transition functions. -/
def exampleTransportState : TransportState where
  token := List.replicate 16 0
  socketOpen := true
  deviceId := 9
  stamp := 5
  lastHandshake := 0
  messageId := 3
  pending := [1, 2]

/-- A concrete well-formed 33-byte inbound packet (magic, length 33, deviceId
0, stamp 0, all-zero checksum, one body byte). -/
def examplePacket : List Nat :=
  [0x21, 0x31, 0, 33, 0, 0, 0, 0, 0, 0, 0, 0, 0, 0, 0, 0] ++
    List.replicate 16 0 ++ [5]

/-- C2 witness: with pending ids 1 and 2 and a response carrying id 7
(`jsonStubSeven.parse` yields `{"id": 7}`), the state is unchanged and no
completion is emitted. -/
theorem C2_unmatched_response_ignored_witness :
    MiioTransport.handleMessage cryptoStub
      { stringify := fun _ => [110], parse := fun _ => .ok (Json.obj [("id", Json.num 7)]) }
      exampleTransportState examplePacket = (exampleTransportState, []) ∧
    1 ∈ (MiioTransport.handleMessage cryptoStub
      { stringify := fun _ => [110], parse := fun _ => .ok (Json.obj [("id", Json.num 7)]) }
      exampleTransportState examplePacket).1.pending :=
  C2_unmatched_response_ignored cryptoStub
    { stringify := fun _ => [110], parse := fun _ => .ok (Json.obj [("id", Json.num 7)]) }
    exampleTransportState examplePacket 1 7
    { deviceId := 0, stamp := 0, payload := some (Json.obj [("id", Json.num 7)]) }
    [("id", Json.num 7)]
    (by decide) (by rfl) (by rfl) (by rfl) (by decide)

/-! ### C3: the stamp counter discipline -/

/-- A concrete hello-shaped inbound packet: magic, length field 32, junk in
the checksum field. -/
def exampleHello : List Nat :=
  [0x21, 0x31, 0, 32, 0, 0, 0, 0, 0, 0, 0, 0, 0, 0, 0, 0] ++ List.replicate 16 7

/-- C3 counterexample: an inbound datagram that decodes successfully leaves
the stored stamp at 5 — `handleMessage` never increments it, contradicting
"every successful decode of inbound traffic increases the stored stamp by
one". -/
theorem C3_stamp_on_decode_counterexample :
    MiioPacket.decode cryptoStub jsonStub exampleHello exampleTransportState.token =
      .ok { deviceId := 0, stamp := 0, payload := none } ∧
    exampleTransportState.stamp = 5 ∧
    (MiioTransport.handleMessage cryptoStub jsonStub exampleTransportState
      exampleHello).1.stamp = 5 :=
  ⟨rfl, rfl, rfl⟩

/-- C3 (amended): the stamp starts at the value learned from the handshake
(`handshakeStep` stores the decoded stamp), is incremented once before each
outbound send, and is left unchanged by the decoding of inbound traffic
(`handleMessage` never touches it). -/
theorem C3_stamp_discipline (P : CryptoPrims) (J : JsonPrims) (st : TransportState)
    (msg : List Nat) (now : Nat) (dec : MiioPacket.Decoded) (method : String)
    (params : List Json) (data : List Nat)
    (hdec : MiioPacket.decode P J msg st.token = .ok dec) :
    (MiioTransport.handshakeStep P J st msg now).1.stamp = dec.stamp ∧
    (MiioTransport.sendStep P J st method params).1.stamp = st.stamp + 1 ∧
    (MiioTransport.handleMessage P J st data).1.stamp = st.stamp := by
  refine ⟨?_, ?_, ?_⟩
  · simp [MiioTransport.handshakeStep, hdec]
  · unfold MiioTransport.sendStep
    dsimp only
    split <;> rfl
  · unfold MiioTransport.handleMessage
    dsimp only
    repeat' split
    all_goals rfl

/-- C3 witness: at the concrete state with stamp 5, a handshake response with
stamp 0 stores 0, a send moves the stamp to 6, and an inbound decode leaves
it at 5. -/
theorem C3_stamp_discipline_witness :
    (MiioTransport.handshakeStep cryptoStub jsonStub exampleTransportState
      exampleHello 100).1.stamp = 0 ∧
    (MiioTransport.sendStep cryptoStub jsonStub exampleTransportState
      "miIO.info" []).1.stamp = 5 + 1 ∧
    (MiioTransport.handleMessage cryptoStub jsonStub exampleTransportState
      exampleHello).1.stamp = 5 :=
  C3_stamp_discipline cryptoStub jsonStub exampleTransportState exampleHello 100
    { deviceId := 0, stamp := 0, payload := none } "miIO.info" [] exampleHello
    (by rfl)

/-! ### C4: destroy semantics and operations after destroy -/

/-- C4 counterexample: after `destroy()` (which rejects the pending ids 1 and
2 with the destroyed condition), a subsequent `send` does *not* fail with the
destroyed condition — there is no destroyed flag; `ensureSocket` recreates
the socket lazily and the command is issued normally. -/
theorem C4_send_after_destroy_counterexample :
    (MiioTransport.destroy exampleTransportState).2 =
      [TransportEvent.rejectedDestroyed 1, TransportEvent.rejectedDestroyed 2] ∧
    (MiioTransport.sendStep cryptoStub jsonStubNull
        (MiioTransport.destroy exampleTransportState).1 "miIO.info" []).2 =
      .ok (3, [33, 49, 0, 37, 0, 0, 0, 0, 0, 0, 0, 9, 0, 0, 0, 6] ++
        List.replicate 16 0 ++ [0, 110, 117, 108, 108]) ∧
    (MiioTransport.sendStep cryptoStub jsonStubNull
        (MiioTransport.destroy exampleTransportState).1 "miIO.info" []).1.socketOpen =
      true :=
  ⟨rfl, rfl, rfl⟩

/-- C4 (amended): `destroy()` force-fails exactly the pending requests with
the distinct destroyed condition, clears the map and closes the socket; but
an operation attempted after `destroy()` does not fail with the destroyed
condition — `send` recreates the socket lazily and succeeds whenever
encoding succeeds. -/
theorem C4_destroy_semantics (P : CryptoPrims) (J : JsonPrims) (st : TransportState)
    (method : String) (params : List Json) :
    (MiioTransport.destroy st).2 = st.pending.map TransportEvent.rejectedDestroyed ∧
    (MiioTransport.destroy st).1.pending = [] ∧
    (MiioTransport.destroy st).1.socketOpen = false ∧
    ∀ pkt, MiioPacket.encode P J st.deviceId (st.stamp + 1) st.token
        (sendPayload st.messageId method params) = .ok pkt →
      (MiioTransport.sendStep P J (MiioTransport.destroy st).1 method params).2 =
        .ok (st.messageId, pkt) := by
  refine ⟨rfl, rfl, rfl, fun pkt h => ?_⟩
  simp [MiioTransport.sendStep, MiioTransport.destroy, h]

/-- C4 witness: the amended statement evaluated at the concrete state — the
two pending requests are rejected as destroyed, and the send issued after the
destroy completes with the encoded packet instead of failing. -/
theorem C4_destroy_semantics_witness :
    (MiioTransport.destroy exampleTransportState).2 =
      exampleTransportState.pending.map TransportEvent.rejectedDestroyed ∧
    (MiioTransport.sendStep cryptoStub jsonStubNull
        (MiioTransport.destroy exampleTransportState).1 "miIO.info" []).2 =
      .ok (exampleTransportState.messageId,
        [33, 49, 0, 37, 0, 0, 0, 0, 0, 0, 0, 9, 0, 0, 0, 6] ++
          List.replicate 16 0 ++ [0, 110, 117, 108, 108]) :=
  ⟨(C4_destroy_semantics cryptoStub jsonStubNull exampleTransportState "miIO.info" []).1,
    (C4_destroy_semantics cryptoStub jsonStubNull exampleTransportState
      "miIO.info" []).2.2.2 _ (by rfl)⟩
